import Mathlib

/-!
Shallow embedding of the PinchBench API core (benchmark-result intake and
ranking service), translated from the TypeScript source:
src/routes/results.ts, src/routes/submissions.ts, src/routes/admin.ts
(register route), src/utils/security.ts, and the D1 schema.

Conventions of the embedding:
* JS numbers are modelled as rationals; SQL text timestamps become
  natural-number seconds of server time.
* The D1 store becomes an explicit record of row lists; each route handler
  becomes a function from request data and store to response and new store.
* Host primitives that are not code of this repository are parameters:
  the SHA-256 token hash is an abstract function on strings, and the
  finiteness test of JS Date.parse is an abstract boolean predicate.
-/

namespace PinchBench

/-- Rounding used by Number(x.toFixed(2)) in the percentile responses:
round to the nearest hundredth. -/
def round2 (q : ℚ) : ℚ := ((round (q * 100) : ℤ) : ℚ) / 100

/-- Lower-case hexadecimal digit test, used by the UUID v4 check. -/
def isHexLower (c : Char) : Bool :=
  ('0' ≤ c && c ≤ '9') || ('a' ≤ c && c ≤ 'f')

/-- UUID_V4_REGEX of results.ts: 8-4-4-4-12 hex groups, version nibble 4,
variant nibble in [89ab], case-insensitive. -/
def isUuidV4 (s : String) : Bool :=
  let cs := s.toList.map Char.toLower
  cs.length == 36 &&
    (List.range 36).all fun i =>
      let c := cs.getD i ' '
      if i == 8 || i == 13 || i == 18 || i == 23 then c == '-'
      else if i == 14 then c == '4'
      else if i == 19 then c == '8' || c == '9' || c == 'a' || c == 'b'
      else isHexLower c

/-- isIsoTimestamp of results.ts: an empty string is rejected, otherwise the
value must parse to a finite number under Date.parse (abstracted as the
parameter dateParseOk, a host primitive outside this repository). -/
def isIsoTimestamp (dateParseOk : String → Bool) (value : String) : Bool :=
  if value == "" then false else dateParseOk value

/-- Per-task entry of a SubmissionPayload (types.ts). A score field holds
none when the JSON value is absent or not a number. -/
structure SubmissionTask where
  score : Option ℚ
  max_score : Option ℚ
deriving Repr, DecidableEq

/-- SubmissionPayload of types.ts, as parsed from the request JSON.
Every field may be absent or of the wrong type in the raw JSON, so the
fields the validator inspects are Options; tasks is none when the JSON
value is not an array. -/
structure SubmissionPayload where
  submission_id : Option String
  timestamp : Option String
  model : Option String
  provider : Option String
  run_id : Option String
  client_version : Option String
  openclaw_version : Option String
  benchmark_version : Option String
  total_score : Option ℚ
  max_score : Option ℚ
  total_execution_time_seconds : Option ℚ
  total_cost_usd : Option ℚ
  tasks : Option (List SubmissionTask)
deriving Repr, DecidableEq

/-- JS String.prototype.trim: drop leading and trailing whitespace
(structural executable form of String.trim). -/
def jsTrim (s : String) : String :=
  String.mk
    ((((s.toList.dropWhile Char.isWhitespace).reverse).dropWhile
        Char.isWhitespace).reverse)

/-- The check !payload.model || !payload.model.trim() of results.ts:
the model is missing when absent or blank after trimming. -/
def modelMissing (m : Option String) : Bool :=
  match m with
  | none => true
  | some s => jsTrim s == ""

/-- The check !Array.isArray(payload.tasks) || payload.tasks.length === 0. -/
def tasksEmpty (t : Option (List SubmissionTask)) : Bool :=
  match t with
  | none => true
  | some ts => ts.isEmpty

/-- Violation message for a task whose score fields are not numbers. -/
def taskNumMsg (i : Nat) : String :=
  s!"tasks[{i}].score and max_score must be numbers"

/-- Violation message for a task whose score exceeds its max score. -/
def taskRangeMsg (i : Nat) : String :=
  s!"tasks[{i}].score must be between 0 and max_score"

/-- The per-task forEach loop of results.ts lines 128-139, carrying the
running task index. -/
def taskViolationsFrom : Nat → List SubmissionTask → List String
  | _, [] => []
  | i, t :: rest =>
    (match t.score, t.max_score with
     | some s, some m => if s > m then [taskRangeMsg i] else []
     | _, _ => [taskNumMsg i]) ++ taskViolationsFrom (i + 1) rest

/-- The validation block of results.ts lines 101-139: each broken rule
pushes its message onto the details list, in source order. -/
def validate (dateParseOk : String → Bool) (p : SubmissionPayload) :
    List String :=
  (if isUuidV4 (p.submission_id.getD "") then []
   else ["submission_id must be a valid UUID v4"]) ++
  (if isIsoTimestamp dateParseOk (p.timestamp.getD "") then []
   else ["timestamp must be ISO 8601 format"]) ++
  (if modelMissing p.model then ["model is required and must be non-empty"]
   else []) ++
  (if tasksEmpty p.tasks then ["tasks must have at least one entry"]
   else []) ++
  (match p.total_score, p.max_score with
   | some t, some m =>
     if t > m then ["total_score must be less than or equal to max_score"]
     else []
   | _, _ => ["total_score and max_score must be numbers"]) ++
  (match p.tasks with
   | some ts => taskViolationsFrom 0 ts
   | none => [])

/-- Row of the submissions table (schema.sql), with the columns the core
reads; created_at is the server-assigned creation time. -/
structure SubmissionRec where
  id : String
  token_id : String
  model : String
  provider : Option String
  total_score : ℚ
  max_score : ℚ
  score_percentage : ℚ
  timestamp : String
  benchmark_version : Option String
  created_at : Nat
deriving Repr, DecidableEq

/-- Row of the tokens table (schema.sql). -/
structure TokenRec where
  id : String
  token_hash : String
  claim_code : Option String
  claim_expires_at : Option Nat
  claimed_at : Option Nat
  created_at : Nat
  last_used_at : Option Nat
deriving Repr, DecidableEq

/-- Row of the benchmark_versions table (schema.sql plus the hidden column
used by the admin routes). -/
structure VersionRec where
  id : String
  current : Bool
  hidden : Bool
  created_at : Nat
deriving Repr, DecidableEq

/-- Row of the token_registration_limits table (schema.sql). -/
structure RegistrationAttempt where
  ip : String
  created_at : Nat
deriving Repr, DecidableEq

/-- The D1 database state: one list per table the core touches. -/
structure Store where
  submissions : List SubmissionRec
  tokens : List TokenRec
  versions : List VersionRec
  registrationLimits : List RegistrationAttempt
deriving Repr, DecidableEq

/-- SELECT COUNT(*) FROM submissions WHERE token_id = ? AND
created_at >= datetime('now','-1 day')  (results.ts line 167). -/
def dailySubmissionCount (st : Store) (tokenId : String) (now : Nat) : Nat :=
  (st.submissions.filter fun r =>
    r.token_id == tokenId && now ≤ r.created_at + 86400).length

/-- SELECT COUNT(*) FROM token_registration_limits WHERE ip = ? AND
created_at >= datetime('now','-1 hour')  (register route). -/
def hourlyRegistrationCount (st : Store) (ip : String) (now : Nat) : Nat :=
  (st.registrationLimits.filter fun r =>
    r.ip == ip && now ≤ r.created_at + 3600).length

/-- SELECT COUNT(*) FROM submissions WHERE score_percentage > ?. -/
def countHigher (st : Store) (target : ℚ) : Nat :=
  (st.submissions.filter fun r => target < r.score_percentage).length

/-- SELECT COUNT(*) FROM submissions WHERE score_percentage < ?. -/
def countLower (st : Store) (target : ℚ) : Nat :=
  (st.submissions.filter fun r => r.score_percentage < target).length

/-- SELECT COUNT(DISTINCT score_percentage) FROM submissions WHERE
score_percentage > ?  (submissions.ts line 234). -/
def distinctHigherCount (st : Store) (target : ℚ) : Nat :=
  (((st.submissions.filter fun r => target < r.score_percentage).map
      fun r => r.score_percentage).dedup).length

/-- The ingest-response percentile of results.ts lines 272-280:
(lower / total) * 100, 0 on an empty population, then toFixed(2). -/
def ingestPercentile (st : Store) (target : ℚ) : ℚ :=
  round2 (if st.submissions.length = 0 then 0
          else (countLower st target : ℚ) / (st.submissions.length : ℚ) * 100)

/-- INSERT OR IGNORE INTO benchmark_versions (id, current) VALUES (?, 0)
(results.ts lines 235-242): a fresh version row is never current. -/
def insertVersionIfAbsent (id : String) (now : Nat) (st : Store) : Store :=
  if (st.versions.find? fun v => v.id == id).isSome then st
  else { st with versions := st.versions ++
          [{ id := id, current := false, hidden := false, created_at := now }] }

/-- UPDATE tokens SET last_used_at = datetime('now') WHERE id = ?. -/
def touchToken (tokenId : String) (now : Nat) (st : Store) : Store :=
  { st with tokens := st.tokens.map fun t =>
      if t.id == tokenId then { t with last_used_at := some now } else t }

/-- Response of POST /api/results after the transport checks. The accepted
constructor carries the scorePercentage variable of results.ts line 161
(the stored percentage on a retry, the freshly computed one otherwise),
which the handler feeds into the rank and percentile counts, together with
the HTTP status (200 on a retry, 201 on a fresh insert). -/
inductive IngestResponse where
  | unauthorized
  | validationFailed (details : List String)
  | rateLimited
  | accepted (submission_id : String) (scorePercentage : ℚ) (rank : Nat)
      (percentile : ℚ) (isNew : Bool) (status : Nat)
deriving Repr, DecidableEq

/-- The tail of the results handler (results.ts lines 250-284): count
total, strictly-higher, strictly-lower rows over the current store, then
respond with rank = higher + 1 and the rounded percentile. -/
def respondAccepted (sid : String) (spct : ℚ) (isNew : Bool) (status : Nat)
    (st : Store) : IngestResponse × Store :=
  (IngestResponse.accepted sid spct (countHigher st spct + 1)
    (ingestPercentile st spct) isNew status, st)

/-- computedScorePercentage of results.ts lines 159-160:
payload.max_score === 0 ? 0 : payload.total_score / payload.max_score.
The catch-all arm is unreachable on accepted payloads, whose score fields
validation has already proved numeric. -/
def ingestComputed (p : SubmissionPayload) : ℚ :=
  match p.total_score, p.max_score with
  | some t, some m => if m = 0 then 0 else t / m
  | _, _ => 0

/-- The submissions row bound by the INSERT of results.ts lines 183-233,
with created_at assigned from the server clock. -/
def newSubmissionRow (p : SubmissionPayload) (tokenId : String)
    (now : Nat) : SubmissionRec :=
  { id := p.submission_id.getD ""
    token_id := tokenId
    model := p.model.getD ""
    provider := p.provider
    total_score := p.total_score.getD 0
    max_score := p.max_score.getD 0
    score_percentage := ingestComputed p
    timestamp := p.timestamp.getD ""
    benchmark_version := p.benchmark_version
    created_at := now }

/-- Append the freshly inserted submission row. -/
def insertSubmission (p : SubmissionPayload) (tokenId : String) (now : Nat)
    (st : Store) : Store :=
  { st with submissions := st.submissions ++ [newSubmissionRow p tokenId now] }

/-- The if (payload.benchmark_version) auto-registration of results.ts
lines 235-242, skipped on an absent or empty (JS-falsy) identifier. -/
def insertVersionMaybe (p : SubmissionPayload) (now : Nat) (st : Store) :
    Store :=
  match p.benchmark_version with
  | some bv => if bv == "" then st else insertVersionIfAbsent bv now st
  | none => st

/-- POST /api/results (results.ts lines 46-285) after the HTTPS,
Content-Type, body-size and JSON-parse transport checks: resolve the
token by hash, validate, short-circuit on an existing submission_id,
otherwise rate-limit, insert, auto-register the benchmark version, and in
either non-error case touch the token and compute rank and percentile. -/
def postResults (dateParseOk : String → Bool) (hash : String → String)
    (now : Nat) (token : String) (p : SubmissionPayload) (st : Store) :
    IngestResponse × Store :=
  match st.tokens.find? fun t => t.token_hash == hash token with
  | none => (IngestResponse.unauthorized, st)
  | some tokenRow =>
    let details := validate dateParseOk p
    if 0 < details.length then (IngestResponse.validationFailed details, st)
    else
      let sid := p.submission_id.getD ""
      match st.submissions.find? fun r => r.id == sid with
      | some r =>
        respondAccepted sid r.score_percentage false 200
          (touchToken tokenRow.id now st)
      | none =>
        if 100 ≤ dailySubmissionCount st tokenRow.id now then
          (IngestResponse.rateLimited, st)
        else
          respondAccepted sid (ingestComputed p) true 201
            (touchToken tokenRow.id now
              (insertVersionMaybe p now (insertSubmission p tokenRow.id now st)))

/-- Response body of GET /api/submissions/:id (submissions.ts): the
fields of the detail view that the ranking claims talk about. -/
structure DetailResponse where
  score_percentage : ℚ
  rank : Nat
  total_submissions : Nat
  percentile : ℚ
deriving Repr, DecidableEq

/-- GET /api/submissions/:id (submissions.ts lines 177-302): the row is
looked up joined against tokens, rank is COUNT(DISTINCT score_percentage)
strictly above the row plus one, and percentile is
(total - rank) / total * 100 rounded, or 0 on an empty population. -/
def getSubmissionDetail (sid : String) (st : Store) : Option DetailResponse :=
  match st.submissions.find? fun r =>
      r.id == sid && st.tokens.any fun t => t.id == r.token_id with
  | none => none
  | some row =>
    let rank := distinctHigherCount st row.score_percentage + 1
    let total := st.submissions.length
    let pct :=
      if 0 < total then
        round2 (((total : ℚ) - (rank : ℚ)) / (total : ℚ) * 100)
      else 0
    some { score_percentage := row.score_percentage
           rank := rank
           total_submissions := total
           percentile := pct }

/-- Query-parameter normalisation of resolveBenchmarkVersions: trim, and
treat an absent or blank value as missing (JS falsiness of ""). -/
def trimmedQuery (q : Option String) : Option String :=
  match q with
  | none => none
  | some s => let t := jsTrim s; if t == "" then none else some t

/-- The requested version: the version query parameter, else the
benchmark_version query parameter (the JS || chain). -/
def requestedVersion (versionQ benchmarkVersionQ : Option String) :
    Option String :=
  (trimmedQuery versionQ).orElse fun _ => trimmedQuery benchmarkVersionQ

/-- resolveBenchmarkVersions (submissions.ts lines 9-21): an explicit
query parameter yields exactly that singleton with no existence check;
otherwise the ids of the rows flagged current. -/
def resolveBenchmarkVersions (versionQ benchmarkVersionQ : Option String)
    (st : Store) : List String :=
  match requestedVersion versionQ benchmarkVersionQ with
  | some v => [v]
  | none => (st.versions.filter fun v => v.current).map fun v => v.id

/-- Semantics of appendBenchmarkVersionFilter applied to a query: an empty
scope list appends no clause, so all rows pass; otherwise rows must have a
benchmark_version contained in the scope (SQL IN, never true on NULL). -/
def applyVersionFilter (versions : List String)
    (rows : List SubmissionRec) : List SubmissionRec :=
  if versions.isEmpty then rows
  else rows.filter fun r =>
    match r.benchmark_version with
    | some b => versions.contains b
    | none => false

/-- Response of POST /api/register after the transport checks. -/
inductive RegisterResponse where
  | rateLimited
  | created (token : String) (claim_code : String)
deriving Repr, DecidableEq

/-- The token row inserted by registration: only the hash of the secret is
stored, with the claim code and a 24-hour claim expiry. -/
def regTokenRow (hash : String → String) (now : Nat)
    (secret claimCode tokenId : String) : TokenRec :=
  { id := tokenId
    token_hash := hash secret
    claim_code := some claimCode
    claim_expires_at := some (now + 24 * 3600)
    claimed_at := none
    created_at := now
    last_used_at := none }

/-- POST /api/register (register route) after the HTTPS and Content-Type
transport checks: rate-limit by ip over the trailing hour, then insert the
token row carrying hash(secret) and append a registration attempt. The
randomly generated secret, claim code and token id are parameters. -/
def postRegister (hash : String → String) (now : Nat) (ip : String)
    (secret claimCode tokenId : String) (st : Store) :
    RegisterResponse × Store :=
  if 10 ≤ hourlyRegistrationCount st ip now then
    (RegisterResponse.rateLimited, st)
  else
    let st1 := { st with tokens := st.tokens ++
                  [regTokenRow hash now secret claimCode tokenId] }
    let st2 := { st1 with registrationLimits := st1.registrationLimits ++
                  [{ ip := ip, created_at := now }] }
    (RegisterResponse.created secret claimCode, st2)

/-- Token lookup shared by the authenticated routes:
SELECT ... FROM tokens WHERE token_hash = ? LIMIT 1 on the hash of the
presented secret; the raw secret is never compared. -/
def resolveIdentity (hash : String → String) (secret : String)
    (st : Store) : Option TokenRec :=
  st.tokens.find? fun t => t.token_hash == hash secret

/-- Body of PUT /admin/api/versions/:id. -/
structure VersionUpdateBody where
  current : Option Bool
  hidden : Option Bool
deriving Repr, DecidableEq

/-- PUT /admin/api/versions/:id (admin.ts lines 102-153): 404 unless the
version exists; on current = true clear the current flag on every row and
then set it on the addressed id; on a boolean hidden update that flag.
The boolean result records whether the version was found. -/
def adminPutVersion (id : String) (body : VersionUpdateBody) (st : Store) :
    Store × Bool :=
  if (st.versions.find? fun v => v.id == id).isSome then
    let st1 :=
      if body.current = some true then
        let cleared := st.versions.map (fun v => { v with current := false })
        let flagged := cleared.map (fun v =>
          if v.id == id then { v with current := true } else v)
        { st with versions := flagged }
      else st
    let st2 :=
      match body.hidden with
      | some h =>
        let upd := st1.versions.map (fun v =>
          if v.id == id then { v with hidden := h } else v)
        { st1 with versions := upd }
      | none => st1
    (st2, true)
  else (st, false)

/-- Number of rows flagged current in benchmark_versions. -/
def currentCount (st : Store) : Nat :=
  (st.versions.filter fun v => v.current).length

/-- A task entry breaks the per-task rule when its score fields are not
both numbers or its score exceeds its max score (results.ts 128-139). -/
def taskRuleBroken (t : SubmissionTask) : Bool :=
  match t.score, t.max_score with
  | some s, some m => s > m
  | _, _ => true

/-- Number of validation rules the payload breaks, counting one per
checked rule in the order the validator checks them, and one per broken
task entry. -/
def brokenCount (dp : String → Bool) (p : SubmissionPayload) : Nat :=
  (if isUuidV4 (p.submission_id.getD "") then 0 else 1) +
  (if isIsoTimestamp dp (p.timestamp.getD "") then 0 else 1) +
  (if modelMissing p.model then 1 else 0) +
  (if tasksEmpty p.tasks then 1 else 0) +
  (match p.total_score, p.max_score with
   | some t, some m => if t > m then 1 else 0
   | _, _ => 1) +
  (match p.tasks with
   | some ts => (ts.filter taskRuleBroken).length
   | none => 0)

/-- Number of stored submissions whose score percentage equals the
target exactly; used to phrase the unique-maximum hypothesis. -/
def countEqual (st : Store) (target : ℚ) : Nat :=
  (st.submissions.filter fun r => decide (r.score_percentage = target)).length

/-- Concrete inputs used by the witnesses and counterexamples below. -/
def dpAll : String → Bool := fun _ => true

/-- Degenerate stand-in for the SHA-256 token hash in concrete runs. -/
def hashConst : String → String := fun _ => "h"

/-- A registered token row for concrete runs. -/
def tok1 : TokenRec :=
  { id := "t1", token_hash := "h", claim_code := none,
    claim_expires_at := none, claimed_at := none, created_at := 0,
    last_used_at := none }

/-- A lexically valid version-4 UUID. -/
def uuidA : String := "b1f75a30-1234-4abc-8def-0123456789ab"

/-- A well-formed payload scoring 80 of 100 against version v7. -/
def payA : SubmissionPayload :=
  { submission_id := some uuidA
    timestamp := some "2026-01-01T00:00:00Z"
    model := some "gpt-x"
    provider := none
    run_id := none
    client_version := none
    openclaw_version := none
    benchmark_version := some "v7"
    total_score := some 80
    max_score := some 100
    total_execution_time_seconds := none
    total_cost_usd := none
    tasks := some [{ score := some 80, max_score := some 100 }] }

/-- A payload that passes every validation rule yet has a negative total
score: total_score = -1 with max_score = 2. -/
def payNeg : SubmissionPayload :=
  { payA with
    total_score := some (-1)
    max_score := some 2
    tasks := some [{ score := some (-1), max_score := some 2 }]
    benchmark_version := none }

/-- A payload breaking every top-level validation rule at once. -/
def payBad : SubmissionPayload :=
  { submission_id := none
    timestamp := none
    model := none
    provider := none
    run_id := none
    client_version := none
    openclaw_version := none
    benchmark_version := none
    total_score := none
    max_score := none
    total_execution_time_seconds := none
    total_cost_usd := none
    tasks := none }

/-- Store holding one registered token and nothing else. -/
def stEmpty : Store :=
  { submissions := [], tokens := [tok1], versions := [],
    registrationLimits := [] }

/-- A stored submission with id uuidA and score percentage 1/2. -/
def subA : SubmissionRec :=
  { id := uuidA, token_id := "t1", model := "gpt-x", provider := none,
    total_score := 1, max_score := 2, score_percentage := mkRat 1 2,
    timestamp := "2025-12-31T00:00:00Z", benchmark_version := none,
    created_at := 0 }

/-- Store already holding the submission uuidA. -/
def stIdem : Store :=
  { submissions := [subA], tokens := [tok1], versions := [],
    registrationLimits := [] }

/-- A stored submission with a given id and score percentage. -/
def exSub (i : String) (q : ℚ) : SubmissionRec :=
  { id := i, token_id := "t1", model := "m", provider := none,
    total_score := q, max_score := 1, score_percentage := q,
    timestamp := "2026-01-01T00:00:00Z", benchmark_version := none,
    created_at := 0 }

/-- Store with a tie at the top: two submissions at 4/5 and one at 1/2. -/
def exStore : Store :=
  { submissions :=
      [exSub "a" (mkRat 4 5), exSub "b" (mkRat 4 5), exSub "c" (mkRat 1 2)],
    tokens := [tok1], versions := [], registrationLimits := [] }

/-- Store whose origin ip1 already has 10 registration attempts inside
the trailing hour at time 50. -/
def regStore10 : Store :=
  { submissions := [], tokens := [tok1], versions := [],
    registrationLimits := List.replicate 10 { ip := "ip1", created_at := 50 } }

/-- One of 100 look-alike submissions of token t1 created at time 40. -/
def subN (i : Nat) : SubmissionRec :=
  { subA with id := String.mk (List.replicate i 'x'), created_at := 40 }

/-- Store whose token t1 already has 100 submissions inside the trailing
day at time 50. -/
def stFull : Store :=
  { submissions := (List.range 100).map subN, tokens := [tok1],
    versions := [], registrationLimits := [] }

/-- Store with version v9 flagged current and v3 known but not current. -/
def verStore : Store :=
  { submissions := [], tokens := [tok1],
    versions :=
      [{ id := "v9", current := true, hidden := false, created_at := 0 },
       { id := "v3", current := false, hidden := false, created_at := 0 }],
    registrationLimits := [] }

end PinchBench

namespace PinchBench

/-! Helper lemmas about the ingest handler's control flow. -/

/-- Touching a token's last-used timestamp changes no submissions. -/
theorem touchToken_submissions (tokenId : String) (now : Nat) (st : Store) :
    (touchToken tokenId now st).submissions = st.submissions := rfl

/-- Unknown token: the handler answers unauthorized and leaves the store. -/
theorem postResults_unauth (dp : String → Bool) (hash : String → String)
    (now : Nat) (token : String) (p : SubmissionPayload) (st : Store)
    (htok : (st.tokens.find? fun t => t.token_hash == hash token) = none) :
    postResults dp hash now token p st = (IngestResponse.unauthorized, st) := by
  simp [postResults, htok]

/-- Failed validation: the handler answers with the full violation list
and leaves the store. -/
theorem postResults_invalid (dp : String → Bool) (hash : String → String)
    (now : Nat) (token : String) (p : SubmissionPayload) (st : Store)
    (tok : TokenRec)
    (htok : (st.tokens.find? fun t => t.token_hash == hash token) = some tok)
    (hval : validate dp p ≠ []) :
    postResults dp hash now token p st =
      (IngestResponse.validationFailed (validate dp p), st) := by
  have hlen : 0 < (validate dp p).length := List.length_pos.mpr hval
  simp [postResults, htok, hlen]

/-- Existing submission_id: the handler short-circuits to the stored row's
percentage, touches the token and answers 200. -/
theorem postResults_retry (dp : String → Bool) (hash : String → String)
    (now : Nat) (token : String) (p : SubmissionPayload) (st : Store)
    (tok : TokenRec) (r : SubmissionRec)
    (htok : (st.tokens.find? fun t => t.token_hash == hash token) = some tok)
    (hval : validate dp p = [])
    (hex : (st.submissions.find? fun s => s.id == p.submission_id.getD "") =
      some r) :
    postResults dp hash now token p st =
      respondAccepted (p.submission_id.getD "") r.score_percentage false 200
        (touchToken tok.id now st) := by
  simp [postResults, htok, hval, hex]

/-- Fresh submission under quota: the handler inserts the row, registers
the version if needed, touches the token and answers 201. -/
theorem postResults_fresh (dp : String → Bool) (hash : String → String)
    (now : Nat) (token : String) (p : SubmissionPayload) (st : Store)
    (tok : TokenRec)
    (htok : (st.tokens.find? fun t => t.token_hash == hash token) = some tok)
    (hval : validate dp p = [])
    (hex : (st.submissions.find? fun s => s.id == p.submission_id.getD "") =
      none)
    (hq : dailySubmissionCount st tok.id now < 100) :
    postResults dp hash now token p st =
      respondAccepted (p.submission_id.getD "") (ingestComputed p) true 201
        (touchToken tok.id now
          (insertVersionMaybe p now (insertSubmission p tok.id now st))) := by
  simp [postResults, htok, hval, hex, Nat.not_le.mpr hq]

/-- Fresh submission over quota: the handler answers rate_limited and
leaves the store. -/
theorem postResults_limited (dp : String → Bool) (hash : String → String)
    (now : Nat) (token : String) (p : SubmissionPayload) (st : Store)
    (tok : TokenRec)
    (htok : (st.tokens.find? fun t => t.token_hash == hash token) = some tok)
    (hval : validate dp p = [])
    (hex : (st.submissions.find? fun s => s.id == p.submission_id.getD "") =
      none)
    (hq : 100 ≤ dailySubmissionCount st tok.id now) :
    postResults dp hash now token p st = (IngestResponse.rateLimited, st) := by
  simp [postResults, htok, hval, hex, hq]

end PinchBench

namespace PinchBench

/-- Rank and percentile carried by an accepted response, read back from
its components. -/
theorem respondAccepted_inv (sid : String) (spct : ℚ) (isNew : Bool)
    (status : Nat) (st : Store) (sid2 : String) (spct2 : ℚ) (rank : Nat)
    (pct : ℚ) (isNew2 : Bool) (status2 : Nat)
    (h : (respondAccepted sid spct isNew status st).1 =
      IngestResponse.accepted sid2 spct2 rank pct isNew2 status2) :
    sid2 = sid ∧ spct2 = spct ∧ rank = countHigher st spct + 1 ∧
      pct = ingestPercentile st spct ∧ isNew2 = isNew ∧ status2 = status := by
  unfold respondAccepted at h
  injection h with h1 h2 h3 h4 h5 h6
  exact ⟨h1.symm, h2.symm, h3.symm, h4.symm, h5.symm, h6.symm⟩

/-- C10: when POST /api/results answers validation_failed or rate_limited,
the handler leaves the store exactly as it was: no submission row is
inserted, no benchmark version is created, and the token's last_used_at
is untouched. -/
theorem c10_error_leaves_store_unchanged (dp : String → Bool)
    (hash : String → String) (now : Nat) (token : String)
    (p : SubmissionPayload) (st : Store) :
    (∀ d, (postResults dp hash now token p st).1 =
        IngestResponse.validationFailed d →
      (postResults dp hash now token p st).2 = st) ∧
    ((postResults dp hash now token p st).1 = IngestResponse.rateLimited →
      (postResults dp hash now token p st).2 = st) := by
  rcases hf : st.tokens.find? fun t => t.token_hash == hash token with _ | tok
  · rw [postResults_unauth dp hash now token p st hf]
    exact ⟨(fun d h => nomatch h), (fun h => nomatch h)⟩
  · by_cases hval : validate dp p = []
    · rcases hex : st.submissions.find? fun s =>
          s.id == p.submission_id.getD "" with _ | r
      · by_cases hq : 100 ≤ dailySubmissionCount st tok.id now
        · rw [postResults_limited dp hash now token p st tok hf hval hex hq]
          exact ⟨(fun d h => nomatch h), (fun _ => rfl)⟩
        · rw [postResults_fresh dp hash now token p st tok hf hval hex
            (Nat.lt_of_not_le hq)]
          exact ⟨(fun d h => nomatch h), (fun h => nomatch h)⟩
      · rw [postResults_retry dp hash now token p st tok r hf hval hex]
        exact ⟨(fun d h => nomatch h), (fun h => nomatch h)⟩
    · rw [postResults_invalid dp hash now token p st tok hf hval]
      exact ⟨(fun d _ => rfl), (fun h => nomatch h)⟩

/-- C10 witness: a payload breaking every rule is rejected with the store
untouched. -/
theorem c10_witness :
    (postResults dpAll hashConst 5 "tok" payBad stEmpty).1 =
      IngestResponse.validationFailed (validate dpAll payBad) ∧
    (postResults dpAll hashConst 5 "tok" payBad stEmpty).2 = stEmpty :=
  ⟨by decide,
   (c10_error_leaves_store_unchanged dpAll hashConst 5 "tok" payBad
      stEmpty).1 (validate dpAll payBad) (by decide)⟩

end PinchBench

namespace PinchBench

/-- C1: ingest is idempotent on submission_id. When the store already
holds exactly one row for the payload's submission_id, a second POST
leaves the submissions table unchanged (still exactly one row for that
identifier) and answers with the originally stored score percentage —
not one recomputed from the retry payload — with isNew signalled as
false via HTTP 200 instead of 201. -/
theorem c1_ingest_idempotent (dp : String → Bool) (hash : String → String)
    (now : Nat) (token : String) (p : SubmissionPayload) (st : Store)
    (tok : TokenRec) (r : SubmissionRec)
    (htok : (st.tokens.find? fun t => t.token_hash == hash token) = some tok)
    (hval : validate dp p = [])
    (hex : (st.submissions.find? fun s => s.id == p.submission_id.getD "") =
      some r)
    (hone : (st.submissions.filter fun s =>
      s.id == p.submission_id.getD "").length = 1) :
    (postResults dp hash now token p st).2.submissions = st.submissions ∧
    ((postResults dp hash now token p st).2.submissions.filter fun s =>
      s.id == p.submission_id.getD "").length = 1 ∧
    (postResults dp hash now token p st).1 =
      IngestResponse.accepted (p.submission_id.getD "") r.score_percentage
        (countHigher st r.score_percentage + 1)
        (ingestPercentile st r.score_percentage) false 200 := by
  rw [postResults_retry dp hash now token p st tok r htok hval hex]
  exact ⟨rfl, hone, rfl⟩

/-- C1 witness: retrying uuidA against a store already holding it with
stored percentage 1/2 (the retry payload would recompute 4/5) keeps the
single row and answers 200 with the stored 1/2. -/
theorem c1_ingest_idempotent_witness :
    (postResults dpAll hashConst 5 "tok" payA stIdem).2.submissions =
      stIdem.submissions ∧
    ((postResults dpAll hashConst 5 "tok" payA stIdem).2.submissions.filter
      fun s => s.id == payA.submission_id.getD "").length = 1 ∧
    (postResults dpAll hashConst 5 "tok" payA stIdem).1 =
      IngestResponse.accepted (payA.submission_id.getD "")
        subA.score_percentage (countHigher stIdem subA.score_percentage + 1)
        (ingestPercentile stIdem subA.score_percentage) false 200 :=
  c1_ingest_idempotent dpAll hashConst 5 "tok" payA stIdem tok1 subA
    (by decide) (by decide) (by decide) (by decide)

end PinchBench

namespace PinchBench

/-- Rank, total and percentile reported by the detail view, read back
from a found response. -/
theorem getSubmissionDetail_inv (sid : String) (st : Store)
    (d : DetailResponse) (h : getSubmissionDetail sid st = some d) :
    d.rank = distinctHigherCount st d.score_percentage + 1 ∧
    d.total_submissions = st.submissions.length ∧
    d.percentile =
      (if 0 < st.submissions.length then
        round2 (((st.submissions.length : ℚ) - (d.rank : ℚ)) /
          (st.submissions.length : ℚ) * 100)
       else 0) := by
  unfold getSubmissionDetail at h
  rcases hrow : st.submissions.find? (fun r =>
      r.id == sid && st.tokens.any fun t => t.id == r.token_id) with _ | row
  · rw [hrow] at h
    exact nomatch h
  · rw [hrow] at h
    injection h with h
    subst h
    exact ⟨rfl, rfl, rfl⟩

/-- Any accepted ingest response carries rank = strictly-higher count + 1
and the rounded lower/total percentile, both over the post-request store. -/
theorem postResults_accepted_inv (dp : String → Bool)
    (hash : String → String) (now : Nat) (token : String)
    (p : SubmissionPayload) (st : Store) (sid : String) (spct : ℚ)
    (rank : Nat) (pct : ℚ) (isNew : Bool) (status : Nat)
    (h : (postResults dp hash now token p st).1 =
      IngestResponse.accepted sid spct rank pct isNew status) :
    rank = countHigher (postResults dp hash now token p st).2 spct + 1 ∧
    pct = ingestPercentile (postResults dp hash now token p st).2 spct := by
  rcases hf : st.tokens.find? fun t => t.token_hash == hash token with _ | tok
  · rw [postResults_unauth dp hash now token p st hf] at h
    exact nomatch h
  · by_cases hval : validate dp p = []
    · rcases hex : st.submissions.find? fun s =>
          s.id == p.submission_id.getD "" with _ | r
      · by_cases hq : 100 ≤ dailySubmissionCount st tok.id now
        · rw [postResults_limited dp hash now token p st tok hf hval hex hq]
            at h
          exact nomatch h
        · rw [postResults_fresh dp hash now token p st tok hf hval hex
            (Nat.lt_of_not_le hq)] at h ⊢
          obtain ⟨_, h1, h2, h3, _, _⟩ :=
            respondAccepted_inv _ _ _ _ _ _ _ _ _ _ _ h
          subst h1
          exact ⟨h2, h3⟩
      · rw [postResults_retry dp hash now token p st tok r hf hval hex]
          at h ⊢
        obtain ⟨_, h1, h2, h3, _, _⟩ :=
          respondAccepted_inv _ _ _ _ _ _ _ _ _ _ _ h
        subst h1
        exact ⟨h2, h3⟩
    · rw [postResults_invalid dp hash now token p st tok hf hval] at h
      exact nomatch h

/-- C2 counterexample: in a store scoring 4/5, 4/5, 1/2, the detail view
of the 1/2 submission reports rank 2, while 1 plus the count of strictly
greater stored submissions is 3 — the claim's uniform formula fails on
the detail view. -/
theorem c2_counterexample :
    (getSubmissionDetail "c" exStore).map DetailResponse.score_percentage =
      some (mkRat 1 2) ∧
    (getSubmissionDetail "c" exStore).map DetailResponse.rank = some 2 ∧
    countHigher exStore (mkRat 1 2) + 1 = 3 := by
  refine ⟨?_, ?_, ?_⟩ <;> decide

/-- C2 (amended): the ingest response computes rank as 1 plus the count
of stored submissions with a strictly greater score percentage, while the
submission detail view computes rank as 1 plus the count of distinct
score-percentage values strictly greater than the target. -/
theorem c2_rank_formulas (dp : String → Bool) (hash : String → String)
    (now : Nat) (token : String) (p : SubmissionPayload) (st : Store) :
    (∀ sid spct rank pct isNew status,
      (postResults dp hash now token p st).1 =
        IngestResponse.accepted sid spct rank pct isNew status →
      rank = countHigher (postResults dp hash now token p st).2 spct + 1) ∧
    (∀ sid2 st2 d, getSubmissionDetail sid2 st2 = some d →
      d.rank = distinctHigherCount st2 d.score_percentage + 1) :=
  ⟨fun sid spct rank pct isNew status h =>
    (postResults_accepted_inv dp hash now token p st sid spct rank pct
      isNew status h).1,
   fun sid2 st2 d h => (getSubmissionDetail_inv sid2 st2 d h).1⟩

/-- C2 witness: the fresh ingest of payA reports rank 1 over the store it
leaves behind, and the detail view of the 1/2 submission in exStore
reports the deduplicated rank 2. -/
theorem c2_rank_formulas_witness :
    ((1 : Nat) = countHigher
      (postResults dpAll hashConst 5 "tok" payA stEmpty).2 (mkRat 4 5) + 1) ∧
    ((2 : Nat) = distinctHigherCount exStore (mkRat 1 2) + 1) := by
  constructor
  · exact (c2_rank_formulas dpAll hashConst 5 "tok" payA stEmpty).1
      (payA.submission_id.getD "") (mkRat 4 5) 1 0 true 201
      (by norm_num +decide [postResults, validate, isIsoTimestamp,
        modelMissing, tasksEmpty, taskViolationsFrom, jsTrim, payA, dpAll,
        hashConst, stEmpty, tok1, respondAccepted, countHigher, countLower,
        ingestPercentile, dailySubmissionCount, touchToken,
        insertVersionMaybe, insertVersionIfAbsent, insertSubmission,
        newSubmissionRow, ingestComputed, round2, uuidA, Rat.mkRat_eq_div])
  · exact (c2_rank_formulas dpAll hashConst 5 "tok" payA stEmpty).2 "c"
      exStore
      { score_percentage := mkRat 1 2, rank := 2, total_submissions := 3,
        percentile := mkRat 3333 100 }
      (by norm_num +decide [getSubmissionDetail, exStore, exSub, tok1,
        distinctHigherCount, round2, round_eq, Rat.mkRat_eq_div])

end PinchBench

namespace PinchBench

/-- On a non-empty population the ingest percentile is the rounded
100 * lower / total. -/
theorem ingestPercentile_of_ne_nil (st : Store) (spct : ℚ)
    (h : st.submissions ≠ []) :
    ingestPercentile st spct =
      round2 (100 * (countLower st spct : ℚ) /
        (st.submissions.length : ℚ)) := by
  unfold ingestPercentile
  rw [if_neg (by simpa using h)]
  congr 1
  ring

/-- On an empty population the ingest percentile is 0. -/
theorem ingestPercentile_of_nil (st : Store) (spct : ℚ)
    (h : st.submissions = []) :
    ingestPercentile st spct = 0 := by
  unfold ingestPercentile
  rw [if_pos (by simp [h])]
  norm_num [round2]

/-- Rows at most spct split into rows strictly below and rows exactly at
spct. -/
theorem filter_lt_add_filter_eq (l : List SubmissionRec) (spct : ℚ)
    (hle : ∀ r ∈ l, r.score_percentage ≤ spct) :
    (l.filter fun r => r.score_percentage < spct).length +
      (l.filter fun r => decide (r.score_percentage = spct)).length =
      l.length := by
  induction l with
  | nil => rfl
  | cons a t ih =>
    have ha := hle a (List.mem_cons_self a t)
    have ht := ih fun r hr => hle r (List.mem_cons_of_mem a hr)
    rcases lt_or_eq_of_le ha with hlt | heq
    · have hne : ¬ a.score_percentage = spct := ne_of_lt hlt
      simp [List.filter_cons, hlt, hne]
      omega
    · have hnlt : ¬ a.score_percentage < spct := by
        rw [heq]
        exact lt_irrefl spct
      simp [List.filter_cons, hnlt, heq]
      omega

/-- A unique maximum sits strictly above every other row. -/
theorem countLower_unique_max (st : Store) (spct : ℚ)
    (hle : ∀ r ∈ st.submissions, r.score_percentage ≤ spct)
    (heq : countEqual st spct = 1) :
    countLower st spct + 1 = st.submissions.length := by
  have h := filter_lt_add_filter_eq st.submissions spct hle
  unfold countLower countEqual at *
  omega

/-- Nothing scores strictly above a maximum. -/
theorem distinctHigherCount_of_max (st : Store) (spct : ℚ)
    (hle : ∀ r ∈ st.submissions, r.score_percentage ≤ spct) :
    distinctHigherCount st spct = 0 := by
  unfold distinctHigherCount
  have h : (st.submissions.filter fun r => spct < r.score_percentage) = [] := by
    rw [List.filter_eq_nil_iff]
    intro r hr
    simpa using not_lt.mpr (hle r hr)
  rw [h]
  rfl

/-- C3 counterexample: in a store scoring 4/5, 4/5, 1/2, the detail view
of the 1/2 submission reports percentile 33.33, while the claim's
100 * count(lower) / total formula gives 0 there. -/
theorem c3_counterexample :
    (getSubmissionDetail "c" exStore).map DetailResponse.score_percentage =
      some (mkRat 1 2) ∧
    (getSubmissionDetail "c" exStore).map DetailResponse.percentile =
      some (mkRat 3333 100) ∧
    round2 (100 * (countLower exStore (mkRat 1 2) : ℚ) /
      (exStore.submissions.length : ℚ)) = 0 ∧
    (mkRat 3333 100 : ℚ) ≠ 0 := by
  refine ⟨by decide, ?_, ?_, ?_⟩
  · norm_num +decide [getSubmissionDetail, exStore, exSub, tok1,
      distinctHigherCount, round2, round_eq, Rat.mkRat_eq_div]
  · norm_num +decide [countLower, exStore, exSub, round2, round_eq,
      Rat.mkRat_eq_div]
  · norm_num [Rat.mkRat_eq_div]

end PinchBench

namespace PinchBench

/-- C3 (amended): the ingest response reports the rounded
100 * count(lower) / total percentile (0 on an empty population), while
the detail view reports the rounded 100 * (total - rank) / total with its
deduplicated rank; at a unique maximum over N submissions both give the
rounded 100 * (N - 1) / N. -/
theorem c3_percentile_formulas (dp : String → Bool)
    (hash : String → String) (now : Nat) (token : String)
    (p : SubmissionPayload) (st : Store) :
    (∀ sid spct rank pct isNew status,
      (postResults dp hash now token p st).1 =
        IngestResponse.accepted sid spct rank pct isNew status →
      pct = ingestPercentile (postResults dp hash now token p st).2 spct) ∧
    (∀ st2 : Store, ∀ spct : ℚ, st2.submissions ≠ [] →
      ingestPercentile st2 spct =
        round2 (100 * (countLower st2 spct : ℚ) /
          (st2.submissions.length : ℚ))) ∧
    (∀ st2 : Store, ∀ spct : ℚ, st2.submissions = [] →
      ingestPercentile st2 spct = 0) ∧
    (∀ sid2 st2 d, getSubmissionDetail sid2 st2 = some d →
      d.percentile =
        (if 0 < st2.submissions.length then
          round2 (((st2.submissions.length : ℚ) - (d.rank : ℚ)) /
            (st2.submissions.length : ℚ) * 100)
         else 0)) ∧
    (∀ st2 : Store, ∀ spct : ℚ,
      (∀ r ∈ st2.submissions, r.score_percentage ≤ spct) →
      countEqual st2 spct = 1 →
      ingestPercentile st2 spct =
        round2 (100 * ((st2.submissions.length : ℚ) - 1) /
          (st2.submissions.length : ℚ))) ∧
    (∀ sid2 st2 d, getSubmissionDetail sid2 st2 = some d →
      (∀ r ∈ st2.submissions, r.score_percentage ≤ d.score_percentage) →
      0 < st2.submissions.length →
      d.percentile =
        round2 (100 * ((st2.submissions.length : ℚ) - 1) /
          (st2.submissions.length : ℚ))) := by
  refine ⟨?_, ?_, ?_, ?_, ?_, ?_⟩
  · intro sid spct rank pct isNew status h
    exact (postResults_accepted_inv dp hash now token p st sid spct rank pct
      isNew status h).2
  · intro st2 spct h
    exact ingestPercentile_of_ne_nil st2 spct h
  · intro st2 spct h
    exact ingestPercentile_of_nil st2 spct h
  · intro sid2 st2 d h
    exact (getSubmissionDetail_inv sid2 st2 d h).2.2
  · intro st2 spct hle hone
    have hcnt := countLower_unique_max st2 spct hle hone
    have hne : st2.submissions ≠ [] := by
      intro hnil
      rw [hnil] at hcnt
      unfold countLower at hcnt
      rw [hnil] at hcnt
      simp at hcnt
    rw [ingestPercentile_of_ne_nil st2 spct hne]
    have hcast : (countLower st2 spct : ℚ) =
        (st2.submissions.length : ℚ) - 1 := by
      have h2 : (countLower st2 spct : ℚ) + 1 =
          (st2.submissions.length : ℚ) := by
        exact_mod_cast hcnt
      linarith
    rw [hcast]
  · intro sid2 st2 d h hle hpos
    obtain ⟨hrank, htot, hpct⟩ := getSubmissionDetail_inv sid2 st2 d h
    have hzero := distinctHigherCount_of_max st2 d.score_percentage hle
    rw [hzero] at hrank
    rw [hpct, if_pos hpos, hrank]
    congr 1
    push_cast
    ring

/-- C3 witness: a fresh ingest of payA reports the ingest percentile over
its own store; the sole submission of stIdem is a unique maximum, so the
ingest formula and the detail view both report the rounded
100 * (1 - 1) / 1. -/
theorem c3_percentile_formulas_witness :
    ((0 : ℚ) = ingestPercentile
      (postResults dpAll hashConst 5 "tok" payA stEmpty).2 (mkRat 4 5)) ∧
    (ingestPercentile stIdem (mkRat 1 2) =
      round2 (100 * ((stIdem.submissions.length : ℚ) - 1) /
        (stIdem.submissions.length : ℚ))) ∧
    ((getSubmissionDetail uuidA stIdem).map DetailResponse.percentile =
      some (round2 (100 * ((stIdem.submissions.length : ℚ) - 1) /
        (stIdem.submissions.length : ℚ)))) := by
  refine ⟨?_, ?_, ?_⟩
  · exact (c3_percentile_formulas dpAll hashConst 5 "tok" payA stEmpty).1
      (payA.submission_id.getD "") (mkRat 4 5) 1 0 true 201
      (by norm_num +decide [postResults, validate, isIsoTimestamp,
        modelMissing, tasksEmpty, taskViolationsFrom, jsTrim, payA, dpAll,
        hashConst, stEmpty, tok1, respondAccepted, countHigher, countLower,
        ingestPercentile, dailySubmissionCount, touchToken,
        insertVersionMaybe, insertVersionIfAbsent, insertSubmission,
        newSubmissionRow, ingestComputed, round2, uuidA, Rat.mkRat_eq_div])
  · exact (c3_percentile_formulas dpAll hashConst 5 "tok" payA
      stEmpty).2.2.2.2.1 stIdem (mkRat 1 2) (by decide) (by decide)
  · have hd : getSubmissionDetail uuidA stIdem =
        some { score_percentage := mkRat 1 2, rank := 1,
               total_submissions := 1, percentile := 0 } := by
      norm_num +decide [getSubmissionDetail, stIdem, subA, tok1,
        distinctHigherCount, round2, round_eq, Rat.mkRat_eq_div, uuidA]
    have := (c3_percentile_formulas dpAll hashConst 5 "tok" payA
      stEmpty).2.2.2.2.2 uuidA stIdem
      { score_percentage := mkRat 1 2, rank := 1, total_submissions := 1,
        percentile := 0 } hd (by decide) (by decide)
    rw [hd]
    exact congrArg some this

end PinchBench

namespace PinchBench

/-- The violation chunk of one task is empty exactly when the task obeys
its rule. -/
theorem task_chunk_eq_nil (a : SubmissionTask) (i : Nat) :
    ((match a.score, a.max_score with
      | some s, some m => if s > m then [taskRangeMsg i] else []
      | _, _ => [taskNumMsg i]) = []) ↔ taskRuleBroken a = false := by
  unfold taskRuleBroken
  rcases hs : a.score with _ | s <;> rcases hm : a.max_score with _ | m <;>
    simp [hs, hm]

/-- The per-task loop reports nothing exactly when every task obeys its
rule. -/
theorem taskViolationsFrom_eq_nil (ts : List SubmissionTask) :
    ∀ i, (taskViolationsFrom i ts = [] ↔
      ∀ task ∈ ts, taskRuleBroken task = false) := by
  induction ts with
  | nil =>
    intro i
    simp [taskViolationsFrom]
  | cons a t ih =>
    intro i
    simp only [taskViolationsFrom, List.append_eq_nil, List.mem_cons]
    rw [task_chunk_eq_nil a i, ih (i + 1)]
    constructor
    · rintro ⟨h1, h2⟩ task hmem
      rcases hmem with rfl | hmem
      · exact h1
      · exact h2 task hmem
    · intro h
      exact ⟨h a (Or.inl rfl), fun task hmem => h task (Or.inr hmem)⟩

/-- The per-task loop reports exactly one message per broken task. -/
theorem taskViolationsFrom_length (ts : List SubmissionTask) :
    ∀ i, (taskViolationsFrom i ts).length =
      (ts.filter taskRuleBroken).length := by
  induction ts with
  | nil => intro i; rfl
  | cons a t ih =>
    intro i
    simp only [taskViolationsFrom, List.length_append, ih (i + 1),
      List.filter_cons]
    have hhead : (match a.score, a.max_score with
        | some s, some m => if s > m then [taskRangeMsg i] else []
        | _, _ => [taskNumMsg i]).length =
        if taskRuleBroken a then 1 else 0 := by
      unfold taskRuleBroken
      rcases hs : a.score with _ | s <;>
        rcases hm : a.max_score with _ | m <;> simp [hs, hm] <;>
        split_ifs <;> rfl
    rw [hhead]
    split_ifs with hb <;> simp [Nat.add_comm]

/-- The per-task loop names every broken task by its index. -/
theorem taskViolationsFrom_mem (ts : List SubmissionTask) :
    ∀ j i, ∀ hi : i < ts.length, taskRuleBroken (ts.get ⟨i, hi⟩) = true →
      taskNumMsg (j + i) ∈ taskViolationsFrom j ts ∨
      taskRangeMsg (j + i) ∈ taskViolationsFrom j ts := by
  induction ts with
  | nil =>
    intro j i hi
    exact absurd hi (Nat.not_lt_zero i)
  | cons a t ih =>
    intro j i hi hbroken
    cases i with
    | zero =>
      have ha : taskRuleBroken a = true := hbroken
      simp only [taskViolationsFrom, Nat.add_zero]
      unfold taskRuleBroken at ha
      rcases hs : a.score with _ | s <;> rcases hm : a.max_score with _ | m <;>
        rw [hs, hm] at ha
      · exact Or.inl (by simp [hs, hm])
      · exact Or.inl (by simp [hs, hm])
      · exact Or.inl (by simp [hs, hm])
      · have hlt : s > m := of_decide_eq_true ha
        exact Or.inr (by simp [hs, hm, hlt])
    | succ k =>
      have hk : k < t.length := Nat.lt_of_succ_lt_succ hi
      have hb : taskRuleBroken (t.get ⟨k, hk⟩) = true := hbroken
      have := ih (j + 1) k hk hb
      have harith : j + 1 + k = j + (k + 1) := by omega
      rw [harith] at this
      rcases this with hmem | hmem
      · exact Or.inl (by simp [taskViolationsFrom, hmem])
      · exact Or.inr (by simp [taskViolationsFrom, hmem])

end PinchBench

namespace PinchBench

/-- The validator reports exactly one message per broken rule. -/
theorem validate_length (dp : String → Bool) (p : SubmissionPayload) :
    (validate dp p).length = brokenCount dp p := by
  unfold validate brokenCount
  rcases hT : p.total_score with _ | t <;>
    rcases hM : p.max_score with _ | m <;>
    rcases hts : p.tasks with _ | ts <;>
    simp [List.length_append, taskViolationsFrom_length,
      apply_ite List.length] <;>
    split_ifs <;> simp [Nat.add_comm, Nat.add_assoc, Nat.add_left_comm]

/-- The validator accepts exactly the payloads obeying every rule. -/
theorem validate_eq_nil_iff (dp : String → Bool) (p : SubmissionPayload) :
    validate dp p = [] ↔
      (isUuidV4 (p.submission_id.getD "") = true ∧
       isIsoTimestamp dp (p.timestamp.getD "") = true ∧
       modelMissing p.model = false ∧
       (∃ ts, p.tasks = some ts ∧ ts ≠ []) ∧
       (∃ t m, p.total_score = some t ∧ p.max_score = some m ∧ t ≤ m) ∧
       (∀ ts, p.tasks = some ts → ∀ task ∈ ts,
          ∃ s m, task.score = some s ∧ task.max_score = some m ∧
            s ≤ m)) := by
  have htask : ∀ a : SubmissionTask, (taskRuleBroken a = false ↔
      ∃ s m, a.score = some s ∧ a.max_score = some m ∧ s ≤ m) := by
    intro a
    unfold taskRuleBroken
    rcases hs : a.score with _ | s <;> rcases hm : a.max_score with _ | m <;>
      simp [hs, hm]
  unfold validate
  rcases hT : p.total_score with _ | t <;>
    rcases hM : p.max_score with _ | m <;>
    rcases hts : p.tasks with _ | ts <;>
    simp [List.append_eq_nil, tasksEmpty, taskViolationsFrom_eq_nil,
      htask, hT, hM, hts, List.isEmpty_iff, apply_ite (· = ([] : List String))]

end PinchBench

namespace PinchBench

/-- C5: validation is complete and fully enumerated. The violation list
has exactly one entry per broken rule (so N broken rules give length at
least N), it is empty precisely when the UUID, timestamp, model, tasks,
score-pair and per-task rules all hold, and every broken rule contributes
its message by name. -/
theorem c5_validation_complete (dp : String → Bool) (p : SubmissionPayload) :
    (validate dp p).length = brokenCount dp p ∧
    (validate dp p = [] ↔
      (isUuidV4 (p.submission_id.getD "") = true ∧
       isIsoTimestamp dp (p.timestamp.getD "") = true ∧
       modelMissing p.model = false ∧
       (∃ ts, p.tasks = some ts ∧ ts ≠ []) ∧
       (∃ t m, p.total_score = some t ∧ p.max_score = some m ∧ t ≤ m) ∧
       (∀ ts, p.tasks = some ts → ∀ task ∈ ts,
          ∃ s m, task.score = some s ∧ task.max_score = some m ∧
            s ≤ m))) ∧
    (isUuidV4 (p.submission_id.getD "") = false →
      "submission_id must be a valid UUID v4" ∈ validate dp p) ∧
    (isIsoTimestamp dp (p.timestamp.getD "") = false →
      "timestamp must be ISO 8601 format" ∈ validate dp p) ∧
    (modelMissing p.model = true →
      "model is required and must be non-empty" ∈ validate dp p) ∧
    (tasksEmpty p.tasks = true →
      "tasks must have at least one entry" ∈ validate dp p) ∧
    ((p.total_score = none ∨ p.max_score = none) →
      "total_score and max_score must be numbers" ∈ validate dp p) ∧
    (∀ t m, p.total_score = some t → p.max_score = some m → m < t →
      "total_score must be less than or equal to max_score" ∈
        validate dp p) ∧
    (∀ ts, p.tasks = some ts → ∀ i, ∀ hi : i < ts.length,
      taskRuleBroken (ts.get ⟨i, hi⟩) = true →
      taskNumMsg i ∈ validate dp p ∨ taskRangeMsg i ∈ validate dp p) := by
  refine ⟨validate_length dp p, validate_eq_nil_iff dp p, ?_, ?_, ?_, ?_,
    ?_, ?_, ?_⟩
  · intro h
    simp [validate, h]
  · intro h
    simp [validate, h]
  · intro h
    simp [validate, h]
  · intro h
    simp [validate, h]
  · intro h
    rcases h with h | h <;> simp [validate, h]
  · intro t m hT hM hlt
    simp [validate, hT, hM, hlt]
  · intro ts hts i hi hbroken
    have := taskViolationsFrom_mem ts 0 i hi hbroken
    rw [Nat.zero_add] at this
    rcases this with hmem | hmem
    · exact Or.inl (by simp [validate, hts, hmem])
    · exact Or.inr (by simp [validate, hts, hmem])

/-- C5 witness: the everything-broken payload gets one message per
broken top-level rule and is exactly the 5-rule count, while payA passes
all rules. -/
theorem c5_validation_complete_witness :
    (validate dpAll payBad).length = brokenCount dpAll payBad ∧
    "submission_id must be a valid UUID v4" ∈ validate dpAll payBad ∧
    "total_score and max_score must be numbers" ∈ validate dpAll payBad ∧
    validate dpAll payA = [] := by
  have h := c5_validation_complete dpAll payBad
  refine ⟨h.1, h.2.2.1 (by decide), h.2.2.2.2.2.2.1 (Or.inl (by decide)),
    ?_⟩
  exact (c5_validation_complete dpAll payA).2.1.mpr
    ⟨by decide, by decide, by decide,
     ⟨[{ score := some 80, max_score := some 100 }], by decide, by decide⟩,
     ⟨80, 100, by decide, by decide, by norm_num⟩,
     by
       intro ts hts task hmem
       have hA : payA.tasks =
           some [({ score := some 80, max_score := some 100 } :
             SubmissionTask)] := rfl
       rw [hA] at hts
       injection hts with h2
       subst h2
       rw [List.mem_singleton] at hmem
       subst hmem
       exact ⟨80, 100, rfl, rfl, by norm_num⟩⟩

end PinchBench

namespace PinchBench

/-- Registering a benchmark version changes no submissions. -/
theorem insertVersionIfAbsent_submissions (id : String) (now : Nat)
    (st : Store) :
    (insertVersionIfAbsent id now st).submissions = st.submissions := by
  unfold insertVersionIfAbsent
  split <;> rfl

/-- The conditional version auto-registration changes no submissions. -/
theorem insertVersionMaybe_submissions (p : SubmissionPayload) (now : Nat)
    (st : Store) :
    (insertVersionMaybe p now st).submissions = st.submissions := by
  unfold insertVersionMaybe
  split
  · split
    · rfl
    · exact insertVersionIfAbsent_submissions _ now st
  · rfl

/-- C4 counterexample: payNeg passes every validation rule (its total
score -1 does not exceed its max score 2) and is ingested as new, yet the
stored score percentage is -1/2, violating 0 ≤ scorePercentage. -/
theorem c4_counterexample :
    validate dpAll payNeg = [] ∧
    (postResults dpAll hashConst 5 "tok" payNeg stEmpty).1 =
      IngestResponse.accepted uuidA (-(1 : ℚ)/2) 1 0 true 201 ∧
    ((postResults dpAll hashConst 5 "tok" payNeg stEmpty).2.submissions.map
      fun r => r.score_percentage) = [-(1 : ℚ)/2] ∧
    ¬ (0 : ℚ) ≤ -(1 : ℚ)/2 := by
  refine ⟨by decide, ?_, ?_, by norm_num⟩
  · norm_num +decide [postResults, validate, isIsoTimestamp, modelMissing,
      tasksEmpty, taskViolationsFrom, jsTrim, payNeg, payA, dpAll,
      hashConst, stEmpty, tok1, respondAccepted, countHigher, countLower,
      ingestPercentile, dailySubmissionCount, touchToken,
      insertVersionMaybe, insertVersionIfAbsent, insertSubmission,
      newSubmissionRow, ingestComputed, round2, uuidA]
  · norm_num +decide [postResults, validate, isIsoTimestamp, modelMissing,
      tasksEmpty, taskViolationsFrom, jsTrim, payNeg, payA, dpAll,
      hashConst, stEmpty, tok1, respondAccepted, countHigher, countLower,
      ingestPercentile, dailySubmissionCount, touchToken,
      insertVersionMaybe, insertVersionIfAbsent, insertSubmission,
      newSubmissionRow, ingestComputed, round2, uuidA]

/-- C4 (amended): each payload accepted by validation and ingested as new
stores scorePercentage = total_score / max_score (0 when max_score = 0),
with total_score ≤ max_score guaranteed by validation; the bounds
0 ≤ scorePercentage ≤ 1 hold whenever the scores are non-negative —
validation does not reject negative scores, so a negative total_score
yields a stored percentage below 0. -/
theorem c4_score_percentage (dp : String → Bool) (hash : String → String)
    (now : Nat) (token : String) (p : SubmissionPayload) (st : Store)
    (t m : ℚ) (sid : String) (spct : ℚ) (rank : Nat) (pct : ℚ)
    (status : Nat)
    (ht : p.total_score = some t) (hm : p.max_score = some m)
    (hacc : (postResults dp hash now token p st).1 =
      IngestResponse.accepted sid spct rank pct true status) :
    spct = (if m = 0 then 0 else t / m) ∧
    (m = 0 → spct = 0) ∧
    t ≤ m ∧
    (0 ≤ t → 0 ≤ m → 0 ≤ spct ∧ spct ≤ 1) ∧
    ∃ r ∈ (postResults dp hash now token p st).2.submissions,
      r.id = sid ∧ r.score_percentage = spct := by
  rcases hf : st.tokens.find? fun tk => tk.token_hash == hash token
    with _ | tok
  · rw [postResults_unauth dp hash now token p st hf] at hacc
    exact nomatch hacc
  · by_cases hval : validate dp p = []
    · rcases hex : st.submissions.find? fun s =>
          s.id == p.submission_id.getD "" with _ | r
      · by_cases hq : 100 ≤ dailySubmissionCount st tok.id now
        · rw [postResults_limited dp hash now token p st tok hf hval hex hq]
            at hacc
          exact nomatch hacc
        · rw [postResults_fresh dp hash now token p st tok hf hval hex
            (Nat.lt_of_not_le hq)] at hacc ⊢
          obtain ⟨hsid, hspct, _, _, _, _⟩ :=
            respondAccepted_inv _ _ _ _ _ _ _ _ _ _ _ hacc
          have hcomp : ingestComputed p = (if m = 0 then 0 else t / m) := by
            unfold ingestComputed
            rw [ht, hm]
          have hle : t ≤ m := by
            obtain ⟨_, _, _, _, ⟨t2, m2, ht2, hm2, hle2⟩, _⟩ :=
              (validate_eq_nil_iff dp p).mp hval
            have het : t = t2 := Option.some_injective _ (ht.symm.trans ht2)
            have hem : m = m2 := Option.some_injective _ (hm.symm.trans hm2)
            rw [het, hem]
            exact hle2
          refine ⟨hspct.trans hcomp, ?_, hle, ?_, ?_⟩
          · intro hm0
            rw [hspct.trans hcomp, if_pos hm0]
          · intro h0t h0m
            rw [hspct.trans hcomp]
            by_cases hm0 : m = 0
            · rw [if_pos hm0]
              norm_num
            · rw [if_neg hm0]
              have hmpos : 0 < m := lt_of_le_of_ne h0m (Ne.symm hm0)
              exact ⟨div_nonneg h0t h0m, (div_le_one hmpos).mpr hle⟩
          · refine ⟨newSubmissionRow p tok.id now, ?_, ?_, ?_⟩
            · show newSubmissionRow p tok.id now ∈
                (touchToken tok.id now (insertVersionMaybe p now
                  (insertSubmission p tok.id now st))).submissions
              rw [touchToken_submissions, insertVersionMaybe_submissions]
              unfold insertSubmission
              simp
            · rw [hsid]
              rfl
            · exact hspct.symm
      · rw [postResults_retry dp hash now token p st tok r hf hval hex]
          at hacc
        obtain ⟨_, _, _, _, hnew, _⟩ :=
          respondAccepted_inv _ _ _ _ _ _ _ _ _ _ _ hacc
        exact nomatch hnew
    · rw [postResults_invalid dp hash now token p st tok hf hval] at hacc
      exact nomatch hacc

/-- C4 witness: the fresh ingest of payA (80 of 100) stores 80/100 with
the bounds holding. -/
theorem c4_score_percentage_witness :
    (mkRat 4 5 : ℚ) = (if (100 : ℚ) = 0 then 0 else 80 / 100) ∧
    ((0 : ℚ) ≤ mkRat 4 5 ∧ (mkRat 4 5 : ℚ) ≤ 1) ∧
    ∃ r ∈ (postResults dpAll hashConst 5 "tok" payA stEmpty).2.submissions,
      r.id = payA.submission_id.getD "" ∧
      r.score_percentage = mkRat 4 5 := by
  have h := c4_score_percentage dpAll hashConst 5 "tok" payA stEmpty 80 100
    (payA.submission_id.getD "") (mkRat 4 5) 1 0 201 rfl rfl
    (by norm_num +decide [postResults, validate, isIsoTimestamp,
      modelMissing, tasksEmpty, taskViolationsFrom, jsTrim, payA, dpAll,
      hashConst, stEmpty, tok1, respondAccepted, countHigher, countLower,
      ingestPercentile, dailySubmissionCount, touchToken,
      insertVersionMaybe, insertVersionIfAbsent, insertSubmission,
      newSubmissionRow, ingestComputed, round2, uuidA, Rat.mkRat_eq_div])
  exact ⟨h.1, h.2.2.2.1 (by norm_num) (by norm_num), h.2.2.2.2⟩

end PinchBench

namespace PinchBench

/-- C6: rate limits trip exactly at the thresholds. Registration fails
with RateLimited precisely when the origin already has 10 or more
attempts inside the trailing hour (the 11th fails) and then changes
nothing; a new submission fails with RateLimited precisely when the token
already has 100 or more submissions whose server-assigned created_at lies
inside the trailing day (the 101st fails); and the daily quota ignores
the client-declared timestamps entirely. -/
theorem c6_rate_limit_thresholds (hash : String → String) (now : Nat)
    (ip secret claimCode tokenId : String) (dp : String → Bool)
    (token : String) (p : SubmissionPayload) (st : Store) (tok : TokenRec)
    (htok : (st.tokens.find? fun t => t.token_hash == hash token) =
      some tok)
    (hval : validate dp p = [])
    (hex : (st.submissions.find? fun s =>
      s.id == p.submission_id.getD "") = none) :
    ((postRegister hash now ip secret claimCode tokenId st).1 =
        RegisterResponse.rateLimited ↔
      10 ≤ hourlyRegistrationCount st ip now) ∧
    ((postRegister hash now ip secret claimCode tokenId st).1 =
        RegisterResponse.rateLimited →
      (postRegister hash now ip secret claimCode tokenId st).2 = st) ∧
    ((postResults dp hash now token p st).1 = IngestResponse.rateLimited ↔
      100 ≤ dailySubmissionCount st tok.id now) ∧
    (∀ f : SubmissionRec → String, ∀ tid : String, ∀ time : Nat,
      dailySubmissionCount
        { st with submissions :=
            st.submissions.map fun r => { r with timestamp := f r } }
        tid time = dailySubmissionCount st tid time) := by
  refine ⟨?_, ?_, ?_, ?_⟩
  · unfold postRegister
    split
    · next h => simpa using h
    · next h => simp [h]
  · unfold postRegister
    split
    · exact fun _ => rfl
    · exact fun h => nomatch h
  · by_cases hq : 100 ≤ dailySubmissionCount st tok.id now
    · rw [postResults_limited dp hash now token p st tok htok hval hex hq]
      simpa using hq
    · rw [postResults_fresh dp hash now token p st tok htok hval hex
        (Nat.lt_of_not_le hq)]
      simp [respondAccepted, hq]
  · intro f tid time
    unfold dailySubmissionCount
    rw [List.filter_map, List.length_map]
    rfl

/-- C6 witness: with 10 attempts from ip1 inside the hour the next
registration is rate-limited and the store unchanged; with 100
submissions of token t1 inside the day the next fresh ingest is
rate-limited. -/
theorem c6_rate_limit_thresholds_witness :
    (postRegister hashConst 50 "ip1" "s" "c" "tid" regStore10).1 =
      RegisterResponse.rateLimited ∧
    (postRegister hashConst 50 "ip1" "s" "c" "tid" regStore10).2 =
      regStore10 ∧
    (postResults dpAll hashConst 50 "tok" payA stFull).1 =
      IngestResponse.rateLimited := by
  have h1 := c6_rate_limit_thresholds hashConst 50 "ip1" "s" "c" "tid"
    dpAll "tok" payA regStore10 tok1 (by decide) (by decide) (by decide)
  have h2 := c6_rate_limit_thresholds hashConst 50 "ip1" "s" "c" "tid"
    dpAll "tok" payA stFull tok1 (by decide) (by decide) (by decide)
  exact ⟨h1.1.mpr (by decide), h1.2.1 (h1.1.mpr (by decide)),
    h2.2.2.1.mpr (by decide)⟩

/-- C7: scope resolution. An explicit requested version resolves to
exactly that singleton for every store state (no existence check, and
independent of which version is current); with no request the scope is
exactly the ids of the versions flagged current; and an empty scope
applies no version filter downstream. -/
theorem c7_scope_resolution (versionQ benchmarkVersionQ : Option String)
    (st : Store) :
    (∀ v, requestedVersion versionQ benchmarkVersionQ = some v →
      resolveBenchmarkVersions versionQ benchmarkVersionQ st = [v]) ∧
    (requestedVersion versionQ benchmarkVersionQ = none →
      resolveBenchmarkVersions versionQ benchmarkVersionQ st =
        (st.versions.filter fun v => v.current).map fun v => v.id) ∧
    (∀ rows : List SubmissionRec,
      resolveBenchmarkVersions versionQ benchmarkVersionQ st = [] →
      applyVersionFilter
        (resolveBenchmarkVersions versionQ benchmarkVersionQ st) rows =
        rows) := by
  refine ⟨?_, ?_, ?_⟩
  · intro v hv
    unfold resolveBenchmarkVersions
    rw [hv]
  · intro hv
    unfold resolveBenchmarkVersions
    rw [hv]
  · intro rows hnil
    rw [hnil]
    rfl

/-- C7 witness: with v9 current, an explicit v3 request wins regardless,
no request resolves to v9, and a blank request over a store with no
current version resolves to the empty scope, which filters nothing. -/
theorem c7_scope_resolution_witness :
    resolveBenchmarkVersions (some "v3") none verStore = ["v3"] ∧
    resolveBenchmarkVersions none none verStore = ["v9"] ∧
    applyVersionFilter (resolveBenchmarkVersions (some "") none stEmpty)
      exStore.submissions = exStore.submissions := by
  have h1 := c7_scope_resolution (some "v3") none verStore
  have h2 := c7_scope_resolution none none verStore
  have h3 := c7_scope_resolution (some "") none stEmpty
  refine ⟨h1.1 "v3" (by decide), ?_,
    h3.2.2 exStore.submissions (by decide)⟩
  rw [h2.2.1 (by decide)]
  decide

end PinchBench

namespace PinchBench

/-- Registering an absent version adds a non-current row, so the number
of current versions is unchanged. -/
theorem currentCount_insertVersionIfAbsent (id : String) (now : Nat)
    (st : Store) :
    currentCount (insertVersionIfAbsent id now st) = currentCount st := by
  unfold insertVersionIfAbsent currentCount
  split
  · rfl
  · simp [List.filter_append]

/-- The conditional auto-registration keeps the current count. -/
theorem currentCount_insertVersionMaybe (p : SubmissionPayload) (now : Nat)
    (st : Store) :
    currentCount (insertVersionMaybe p now st) = currentCount st := by
  unfold insertVersionMaybe
  split
  · split
    · rfl
    · exact currentCount_insertVersionIfAbsent _ now st
  · rfl

/-- Updating hidden flags never changes which rows are current. -/
theorem currentCount_hidden_update (l : List VersionRec) (id : String)
    (h : Bool) :
    ((l.map fun v => if v.id == id then { v with hidden := h } else v).filter
      fun v => v.current).length = (l.filter fun v => v.current).length := by
  induction l with
  | nil => rfl
  | cons a t ih =>
    by_cases ha : a.id = id <;> by_cases hc : a.current = true <;>
      simp [List.filter_cons, ha, hc] <;> simpa using ih

/-- After clearing every current flag, only rows with the addressed id
can end up current. -/
theorem set_current_tail_nil (t : List VersionRec) (id : String)
    (h : ∀ v ∈ t, v.id ≠ id) :
    (((t.map fun v => { v with current := false }).map fun v =>
        if v.id == id then { v with current := true } else v).filter
      fun v => v.current) = [] := by
  induction t with
  | nil => rfl
  | cons a t2 ih =>
    have ha : ¬ (a.id == id) = true := by
      simpa using h a (List.mem_cons_self a t2)
    simp only [List.map_cons, List.filter_cons, ha]
    simpa using ih fun v hv => h v (List.mem_cons_of_mem a hv)

/-- Clear-all-then-set leaves at most one current row when version ids
are pairwise distinct. -/
theorem currentCount_set_current (l : List VersionRec) (id : String)
    (hnd : (l.map fun v => v.id).Nodup) :
    (((l.map fun v => { v with current := false }).map fun v =>
        if v.id == id then { v with current := true } else v).filter
      fun v => v.current).length ≤ 1 := by
  induction l with
  | nil => simp
  | cons a t ih =>
    simp only [List.map_cons, List.nodup_cons] at hnd
    obtain ⟨hna, hnd2⟩ := hnd
    by_cases ha : (a.id == id) = true
    · have haid : a.id = id := by simpa using ha
      have htail : ∀ v ∈ t, v.id ≠ id := by
        intro v hv hvid
        exact hna (haid ▸ hvid ▸ List.mem_map.mpr ⟨v, hv, rfl⟩)
      simp only [List.map_cons, List.filter_cons, ha]
      rw [set_current_tail_nil t id htail]
      simp
    · simp only [List.map_cons, List.filter_cons, ha]
      simpa using ih hnd2

/-- C8: at most one benchmark version is ever current. From a store with
pairwise-distinct version ids holding at most one current version, the
admin set-current operation (clear all, then set one) and any run of the
ingest handler — whose version auto-registration always inserts with
current = 0 — leave at most one current version. -/
theorem c8_at_most_one_current (st : Store)
    (hnd : (st.versions.map fun v => v.id).Nodup)
    (hcur : currentCount st ≤ 1) :
    (∀ id body, currentCount (adminPutVersion id body st).1 ≤ 1) ∧
    (∀ id now, currentCount (insertVersionIfAbsent id now st) =
      currentCount st) ∧
    (∀ dp hash now token p,
      currentCount (postResults dp hash now token p st).2 ≤ 1) := by
  refine ⟨?_, ?_, ?_⟩
  · intro id body
    unfold adminPutVersion
    split
    · by_cases hcb : body.current = some true
      · rcases hbh : body.hidden with _ | hb
        · simp only [hcb, if_true, hbh]
          exact currentCount_set_current st.versions id hnd
        · simp only [hcb, if_true, hbh]
          unfold currentCount
          rw [currentCount_hidden_update]
          exact currentCount_set_current st.versions id hnd
      · rcases hbh : body.hidden with _ | hb
        · simpa [hcb, hbh] using hcur
        · simp only [hcb, if_false, hbh]
          unfold currentCount
          rw [currentCount_hidden_update]
          exact hcur
    · exact hcur
  · intro id now
    exact currentCount_insertVersionIfAbsent id now st
  · intro dp hash now token p
    rcases hf : st.tokens.find? fun tk => tk.token_hash == hash token
      with _ | tok
    · rw [postResults_unauth dp hash now token p st hf]
      exact hcur
    · by_cases hval : validate dp p = []
      · rcases hex : st.submissions.find? fun s =>
            s.id == p.submission_id.getD "" with _ | r
        · by_cases hq : 100 ≤ dailySubmissionCount st tok.id now
          · rw [postResults_limited dp hash now token p st tok hf hval hex
              hq]
            exact hcur
          · rw [postResults_fresh dp hash now token p st tok hf hval hex
              (Nat.lt_of_not_le hq)]
            show currentCount (touchToken tok.id now
              (insertVersionMaybe p now
                (insertSubmission p tok.id now st))) ≤ 1
            have h1 : currentCount (touchToken tok.id now
                (insertVersionMaybe p now
                  (insertSubmission p tok.id now st))) =
                currentCount (insertVersionMaybe p now
                  (insertSubmission p tok.id now st)) := rfl
            rw [h1, currentCount_insertVersionMaybe]
            exact hcur
        · rw [postResults_retry dp hash now token p st tok r hf hval hex]
          exact hcur
      · rw [postResults_invalid dp hash now token p st tok hf hval]
        exact hcur

/-- C8 witness: on verStore (v9 current, v3 not), flipping current to v3
and running a fresh ingest that auto-registers v7 both keep at most one
current version. -/
theorem c8_at_most_one_current_witness :
    currentCount (adminPutVersion "v3"
      { current := some true, hidden := none } verStore).1 ≤ 1 ∧
    currentCount
      (postResults dpAll hashConst 5 "tok" payA verStore).2 ≤ 1 := by
  have h := c8_at_most_one_current verStore (by decide) (by decide)
  exact ⟨h.1 "v3" { current := some true, hidden := none },
    h.2.2 dpAll hashConst 5 "tok" payA⟩

/-- C9: the raw credential secret is never persisted. The store that
registration leaves behind is a function of the secret's hash alone (two
secrets with equal hashes produce identical stores), the only token row
it can add carries token_hash = hash(secret) and fields independent of
the secret, and identity resolution looks up by hash alone — no operation
stores or compares the raw secret. -/
theorem c9_raw_secret_never_persisted (hash : String → String) (now : Nat)
    (ip s1 s2 claimCode tokenId : String) (st : Store)
    (hh : hash s1 = hash s2) :
    (postRegister hash now ip s1 claimCode tokenId st).2 =
      (postRegister hash now ip s2 claimCode tokenId st).2 ∧
    ((postRegister hash now ip s1 claimCode tokenId st).2.tokens =
        st.tokens ∨
      (postRegister hash now ip s1 claimCode tokenId st).2.tokens =
        st.tokens ++ [regTokenRow hash now s1 claimCode tokenId]) ∧
    (regTokenRow hash now s1 claimCode tokenId).token_hash = hash s1 ∧
    resolveIdentity hash s1 st = resolveIdentity hash s2 st := by
  refine ⟨?_, ?_, rfl, ?_⟩
  · unfold postRegister
    split
    · rfl
    · unfold regTokenRow
      rw [hh]
  · unfold postRegister
    split
    · exact Or.inl rfl
    · exact Or.inr rfl
  · unfold resolveIdentity
    rw [hh]

/-- C9 witness: under a hash collision the two registration runs leave
identical stores and resolve identically. -/
theorem c9_raw_secret_never_persisted_witness :
    (postRegister hashConst 0 "ip1" "a" "c" "tid" stEmpty).2 =
      (postRegister hashConst 0 "ip1" "b" "c" "tid" stEmpty).2 ∧
    resolveIdentity hashConst "a" stEmpty =
      resolveIdentity hashConst "b" stEmpty := by
  have h := c9_raw_secret_never_persisted hashConst 0 "ip1" "a" "b" "c"
    "tid" stEmpty (by decide)
  exact ⟨h.1, h.2.2.2⟩

end PinchBench
